import Mathlib

/-!
Verification of the enfermeria2.0 backend (src/server.js).

The repository holds two server variants concatenated in one file:
a plain CRUD variant (English field names, `Service` model, lines 1-214)
and a billing variant (`Servicio`/`Agenda` models plus PDF report
generation, lines 215-551).  Both are embedded below: pure data is
translated to Lean structures, each route handler to a pure function
from the database state and the parsed request to an HTTP status code
plus a response body, and the PDF generation loops to functions that
emit the sequence of rendered lines.
-/

namespace Enfermeria

/-! ## JavaScript string primitives used by the startup sanitization

The billing variant's startup code (server.js lines 232-250) performs
`String.prototype.replace` with a literal pattern (first occurrence
only), `indexOf`, `substring` and `trim` on the `MONGO_URI`
environment value.  Strings are modelled as `List Char`; `trim` is
modelled over the ASCII whitespace characters. -/

/-- Whitespace as stripped by `String.prototype.trim` (ASCII part). -/
def jsIsWS (c : Char) : Bool :=
  c = ' ' || c = '\t' || c = '\n' || c = '\r'

/-- `trimStart`: drop leading whitespace. -/
def trimLeftL (s : List Char) : List Char :=
  s.dropWhile jsIsWS

/-- `trimEnd`: drop trailing whitespace. -/
def trimRightL : List Char → List Char
  | [] => []
  | c :: cs =>
    match trimRightL cs with
    | [] => if jsIsWS c then [] else [c]
    | r => c :: r

/-- `String.prototype.trim`. -/
def jsTrim (s : List Char) : List Char :=
  trimRightL (trimLeftL s)

/-- `jsTrim` lifted to `String`, modelling mongoose's `trim: true` setter. -/
def strTrim (s : String) : String :=
  String.mk (jsTrim s.data)

/-- Does `pat` start the list `s`?  (The prefix test underlying
`indexOf`.) -/
def leadsList : List Char → List Char → Bool
  | [], _ => true
  | _ :: _, [] => false
  | a :: pat, b :: s => a == b && leadsList pat s

/-- `String.prototype.indexOf` with a literal pattern: index of the
first occurrence, `none` when absent. -/
def firstIndexOf (pat : List Char) : List Char → Option Nat
  | [] => if pat.isEmpty then some 0 else none
  | c :: cs =>
    if leadsList pat (c :: cs) then some 0
    else (firstIndexOf pat cs).map (· + 1)

/-- `s.replace(pat, '')` with a string pattern: JavaScript removes only
the first occurrence. -/
def replaceFirst (s pat : List Char) : List Char :=
  match firstIndexOf pat s with
  | none => s
  | some i => s.take i ++ s.drop (i + pat.length)

/-! ## Startup MONGO_URI sanitization (server.js lines 232-250) -/

/-- The accidentally-duplicated key prefix stripped in step 1. -/
def mongoUriKeyPat : List Char := "MONGO_URI=".data

/-- The known tail pattern after which the value is truncated. -/
def appNamePat : List Char := "appName=Cluster0".data

/-- Step 2 of the sanitization: when `appName=Cluster0` occurs, keep
exactly the part up to and including its first occurrence
(`substring(0, index + knownPattern.length)`); otherwise leave the
value alone. -/
def truncateAfterAppName (s : List Char) : List Char :=
  match firstIndexOf appNamePat s with
  | some i => s.take (i + appNamePat.length)
  | none => s

/-- The whole sanitization: remove the first `MONGO_URI=` occurrence
and trim, truncate after `appName=Cluster0`, trim again. -/
def sanitizeMongoUri (s : List Char) : List Char :=
  jsTrim (truncateAfterAppName (jsTrim (replaceFirst s mongoUriKeyPat)))

/-- The sanitization as the specification words it: the input with the
first occurrence of the literal `MONGO_URI=` removed and surrounding
whitespace trimmed; then, only when `appName=Cluster0` occurs in that
result, truncated immediately after the pattern's first occurrence and
trimmed again. -/
def sanitizeMongoUriClaim (s : List Char) : List Char :=
  match firstIndexOf appNamePat (jsTrim (replaceFirst s mongoUriKeyPat)) with
  | some i =>
      jsTrim ((jsTrim (replaceFirst s mongoUriKeyPat)).take (i + appNamePat.length))
  | none => jsTrim (replaceFirst s mongoUriKeyPat)

/-! ## Data model of the billing variant (server.js lines 277-306)

Numbers are modelled as `Int`; the schemas give every numeric field a
default, so persisted documents always carry a value.  The Mongoose
`_id` is modelled as a `Nat` carried alongside or inside the record.
The `Agenda` field named `end` in the source is called `endTime` here
because `end` is a Lean keyword. -/

structure Actividad where
  descripcion : String
  precio : Int
deriving DecidableEq, Repr

structure Servicio where
  fecha : String
  hora : String
  nombreFamiliar : String
  nombrePaciente : String
  nombreAuxiliar : String
  concepto : String
  precio : Int
  total : Int
  firma : Option String
  actividades : List Actividad
deriving DecidableEq, Repr

structure Cita where
  id : Nat
  title : String
  start : Int
  endTime : Option Int
  realizado : Bool
  paciente : Option String
  auxiliar : Option String
deriving DecidableEq, Repr

/-- Database state of the billing variant: the two collections touched
by the claims. -/
structure DbState where
  servicios : List Servicio
  agenda : List Cita
deriving DecidableEq, Repr

/-! ## GET /api/agenda (server.js lines 481-501) -/

/-- The calendar-event shape produced for each stored `Agenda`
document: the stored fields plus a color chosen by a two-way branch on
`realizado`.  (`realizado`, `paciente`, `auxiliar` sit inside
`extendedProps` in the JSON; the nesting is flattened here.) -/
structure Evento where
  id : Nat
  title : String
  start : Int
  endTime : Option Int
  realizado : Bool
  paciente : Option String
  auxiliar : Option String
  color : String
deriving DecidableEq, Repr

/-- The per-document projection inside `GET /api/agenda`. -/
def toEvento (cita : Cita) : Evento :=
  { id := cita.id
    title := cita.title
    start := cita.start
    endTime := cita.endTime
    realizado := cita.realizado
    paciente := cita.paciente
    auxiliar := cita.auxiliar
    color := if cita.realizado then "#007A4D" else "#00AEEF" }

/-- Handler of `GET /api/agenda`: status 200 with the projected events. -/
def getAgenda (st : DbState) : Nat × List Evento :=
  (200, st.agenda.map toEvento)

/-! ## DELETE /api/servicios (server.js lines 337-347) -/

/-- Handler of the bulk `DELETE /api/servicios`: `deleteMany({})` on
`Servicio`, then `deleteMany({})` on `Agenda`, then a 200 JSON
message. -/
def deleteAllServicios (st : DbState) : DbState × Nat × String :=
  ({ st with servicios := [], agenda := [] },
   200, "Todos los servicios y citas eliminados con éxito.")

/-! ## Number.prototype.toLocaleString

Both reports format amounts with `toLocaleString()`, which groups the
decimal digits in threes with commas (the default locale rendering for
integral amounts). -/

/-- Insert a comma after every three characters of a reversed digit
list (so grouping counts from the least-significant digit). -/
def commaGroupRev : List Char → List Char
  | d1 :: d2 :: d3 :: d4 :: rest => d1 :: d2 :: d3 :: ',' :: commaGroupRev (d4 :: rest)
  | ds => ds

/-- `n.toLocaleString()` for an integral amount. -/
def intToLocaleString (n : Int) : String :=
  (if n < 0 then "-" else "")
    ++ String.mk (commaGroupRev (toString n.natAbs).data.reverse).reverse

/-! ## GET /api/reporte/individual/:id (server.js lines 350-398)

The PDF body is modelled as the sequence of text strings written to
the document, in order.  Positioning, fonts and colors are layout
attributes with no bearing on the claims and are not modelled. -/

/-- Sum of the itemized activity prices of a record. -/
def actividadesSum (s : Servicio) : Int :=
  (s.actividades.map Actividad.precio).sum

/-- The text lines of the individual report, in the order the handler
writes them: header block, base-price line, one line per itemized
activity, the total line, then the signature block. -/
def reporteIndividualLines (s : Servicio) : List String :=
  [ "Reporte Individual de Servicio",
    "Fecha: " ++ s.fecha ++ " a las " ++ s.hora,
    "DATOS DEL SERVICIO",
    "Paciente: " ++ s.nombrePaciente,
    "Auxiliar: " ++ s.nombreAuxiliar,
    "Concepto: " ++ s.concepto,
    "Familiar que recibe: " ++ s.nombreFamiliar,
    "DETALLE DE ACTIVIDADES",
    "Servicio Base: $" ++ intToLocaleString s.precio ]
  ++ (s.actividades.map (fun act => "- " ++ act.descripcion)
  ++ (("TOTAL COBRADO: $" ++ intToLocaleString s.total)
  :: "Firma del Familiar:"
  :: (match s.firma with
      | some _ => []
      | none => ["(Firma no disponible)"])))

/-- The total line of the individual report: it sits right after the 9
header lines and the activity lines. -/
def totalCobradoLine (s : Servicio) : Option String :=
  (reporteIndividualLines s)[9 + s.actividades.length]?

/-! ## GET /api/reporte/general (server.js lines 401-473) -/

/-- The "Actividades Ad." column text of one record (server.js line
435). -/
def actividadesStr (s : Servicio) : String :=
  if s.actividades.length > 1
  then toString (s.actividades.length - 1) ++ " adiciones"
  else "Ninguna"

/-- One emitted element of the aggregate report's table area: the
initial (or re-emitted) header row, a page break, or one record row
with its eight column texts. -/
inductive RowLine where
  | headerRow : RowLine
  | pageBreak : RowLine
  | row (fecha hora paciente auxiliar concepto actividadesAd : String)
        (base total : Int) : RowLine
deriving DecidableEq, Repr

/-- The table row written for one record (the two amounts are written
with `toLocaleString`; their numeric values are carried here). -/
def rowOf (s : Servicio) : RowLine :=
  RowLine.row s.fecha s.hora s.nombrePaciente s.nombreAuxiliar
    s.concepto (actividadesStr s) s.precio s.total

/-- The `servicios.forEach` loop of the aggregate report (server.js
lines 433-462): emit the row of each record at the cursor `y`, add the
record's stored `total` to the running grand total `acc`, advance `y`
by 20, and when `y` then exceeds 550 start a new page (`addPage`),
reset the cursor to 50, re-emit the header row and advance past it.
Returns the emitted lines and the final grand total. -/
def emitRows : List Servicio → Nat → Int → List RowLine × Int
  | [], _, acc => ([], acc)
  | s :: rest, y, acc =>
    if y + 20 > 550 then
      let p := emitRows rest (50 + 20) (acc + s.total)
      (rowOf s :: RowLine.pageBreak :: RowLine.headerRow :: p.1, p.2)
    else
      let p := emitRows rest (y + 20) (acc + s.total)
      (rowOf s :: p.1, p.2)

/-- The whole table area of the aggregate report: initial header row,
then the row-emission loop started at cursor `y0` with grand total 0. -/
def reporteGeneralTable (servicios : List Servicio) (y0 : Nat) : List RowLine × Int :=
  let p := emitRows servicios y0 0
  (RowLine.headerRow :: p.1, p.2)

/-- The grand-total line rendered after the table (server.js line
465). -/
def totalRecaudadoLine (servicios : List Servicio) (y0 : Nat) : String :=
  "TOTAL RECAUDADO (General): $"
    ++ intToLocaleString (reporteGeneralTable servicios y0).2

/-- Every page break in the emitted lines is immediately followed by a
re-emitted header row. -/
def headerFollowsBreak : List RowLine → Bool
  | [] => true
  | RowLine.pageBreak :: RowLine.headerRow :: rest => headerFollowsBreak rest
  | RowLine.pageBreak :: _ => false
  | _ :: rest => headerFollowsBreak rest

/-! ## Identifier casting

The `:id` path parameter is cast by mongoose to an ObjectId before the
query runs; a malformed identifier raises a `CastError`, which the
handlers translate to an HTTP status.  The cast's outcome is modelled
as a parsed identifier. -/

inductive ParsedId where
  | valid (oid : Nat) : ParsedId
  | malformed : ParsedId
deriving DecidableEq, Repr

/-! ## Data model of the CRUD variant (server.js lines 52-96) -/

/-- A persisted `Service` document (after defaults and setters). -/
structure Service where
  patientName : String
  familyName : Option String
  activity : String
  visitDate : Int
  price : Int
  isCompleted : Bool
deriving DecidableEq, Repr

/-- The request body of `POST /api/services`: every schema field may
be absent. -/
structure ServiceInput where
  patientName : Option String
  familyName : Option String
  activity : Option String
  visitDate : Option Int
  price : Option Int
  isCompleted : Option Bool
deriving DecidableEq, Repr

/-- Mongoose's default message for a violated `maxlength`, modelled as
a fixed text per field (no claim inspects these messages). -/
def maxlengthMsg (field : String) : String :=
  "La longitud de " ++ field ++ " supera el máximo permitido (100)."

/-- `patientName`: `trim` setter, then `required` (fails on a missing
or empty value) and `maxlength 100`. -/
def patientNameErrors (inp : ServiceInput) : List (String × String) :=
  match inp.patientName.map strTrim with
  | none => [("patientName", "El nombre del paciente es obligatorio.")]
  | some v =>
    (if v = "" then [("patientName", "El nombre del paciente es obligatorio.")] else [])
      ++ (if v.length > 100 then [("patientName", maxlengthMsg "patientName")] else [])

/-- `familyName`: optional, `trim`, `maxlength 100`. -/
def familyNameErrors (inp : ServiceInput) : List (String × String) :=
  match inp.familyName.map strTrim with
  | none => []
  | some v => if v.length > 100 then [("familyName", maxlengthMsg "familyName")] else []

/-- `activity`: default `'Baño asistido en ducha'`, `trim`,
`maxlength 100`. -/
def activityErrors (inp : ServiceInput) : List (String × String) :=
  if (strTrim (inp.activity.getD "Baño asistido en ducha")).length > 100
  then [("activity", maxlengthMsg "activity")] else []

/-- `visitDate`: `required`. -/
def visitDateErrors (inp : ServiceInput) : List (String × String) :=
  match inp.visitDate with
  | none => [("visitDate", "La fecha de la visita es obligatoria.")]
  | some _ => []

/-- `price`: default 20000 (so `required` is always met), `min 0` with
the custom message. -/
def priceErrors (inp : ServiceInput) : List (String × String) :=
  if inp.price.getD 20000 < 0
  then [("price", "El precio no puede ser negativo.")] else []

/-- Validation run by `save()`: one `(path, message)` pair per
violated constraint, in schema order. -/
def validateService (inp : ServiceInput) : List (String × String) :=
  patientNameErrors inp ++ familyNameErrors inp ++ activityErrors inp
    ++ visitDateErrors inp ++ priceErrors inp

/-- The document built from a valid input, with setters and defaults
applied.  (The `getD` fallbacks for the two required fields are never
reached on inputs that pass validation.) -/
def buildService (inp : ServiceInput) : Service :=
  { patientName := strTrim (inp.patientName.getD "")
    familyName := inp.familyName.map strTrim
    activity := strTrim (inp.activity.getD "Baño asistido en ducha")
    visitDate := inp.visitDate.getD 0
    price := inp.price.getD 20000
    isCompleted := inp.isCompleted.getD false }

/-- Response body of `POST /api/services`. -/
inductive PostServiceBody where
  | created (s : Service) : PostServiceBody
  | validationError (messages : List String) : PostServiceBody
deriving DecidableEq, Repr

/-- Handler of `POST /api/services` (server.js lines 123-135): save,
answering 201 with the document, or 400 with the list of validation
messages (`Object.values(error.errors).map(val => val.message)`). -/
def postService (inp : ServiceInput) : Nat × PostServiceBody :=
  match validateService inp with
  | [] => (201, PostServiceBody.created (buildService inp))
  | errs => (400, PostServiceBody.validationError (errs.map (fun e => e.2)))

/-- Lookup by `_id` in a collection keyed by `Nat` identifiers. -/
def findDoc : List (Nat × Service) → Nat → Option Service
  | [], _ => none
  | (k, v) :: rest, oid => if k = oid then some v else findDoc rest oid

/-- Response body of `GET /api/services/:id`. -/
inductive ServiceByIdBody where
  | document (s : Service) : ServiceByIdBody
  | message (m : String) : ServiceByIdBody
deriving DecidableEq, Repr

/-- Handler of `GET /api/services/:id` (server.js lines 148-161):
`findById`, 404 when the document is absent, 200 with the document
otherwise; a `CastError` from a malformed id yields 400. -/
def getServiceById (db : List (Nat × Service)) : ParsedId → Nat × ServiceByIdBody
  | ParsedId.malformed =>
      (400, ServiceByIdBody.message "ID de servicio no válido.")
  | ParsedId.valid oid =>
    match findDoc db oid with
    | none => (404, ServiceByIdBody.message "Servicio no encontrado.")
    | some s => (200, ServiceByIdBody.document s)

/-! ## Agenda by-id routes (server.js lines 516-534) -/

/-- Lookup of an `Agenda` document by `_id`. -/
def findCita : List Cita → Nat → Option Cita
  | [], _ => none
  | c :: rest, oid => if c.id = oid then some c else findCita rest oid

/-- Removal of the (first) `Agenda` document with the given `_id`, as
`findByIdAndDelete` performs. -/
def removeCita : List Cita → Nat → List Cita
  | [], _ => []
  | c :: rest, oid => if c.id = oid then rest else c :: removeCita rest oid

/-- Replace the matching document by its updated version, as
`findByIdAndUpdate` persists. -/
def updateCita : List Cita → Nat → (Cita → Cita) → List Cita
  | [], _, _ => []
  | c :: rest, oid, upd =>
    if c.id = oid then upd c :: rest else c :: updateCita rest oid upd

/-- Response body of `PATCH /api/agenda/:id`: `res.json` of the value
returned by `findByIdAndUpdate` — the updated document, or the JSON
literal `null` when no document matched. -/
inductive PatchAgendaBody where
  | updated (c : Cita) : PatchAgendaBody
  | null : PatchAgendaBody
  | error (m : String) : PatchAgendaBody
deriving DecidableEq, Repr

/-- Handler of `PATCH /api/agenda/:id` (server.js lines 516-524): no
existence check — a missing document still answers 200, with body
`null`.  The request body's field merge is abstracted as `upd`.  A
`CastError` lands in the catch block: 400. -/
def patchAgenda (db : List Cita) (upd : Cita → Cita) :
    ParsedId → List Cita × Nat × PatchAgendaBody
  | ParsedId.malformed => (db, 400, PatchAgendaBody.error "Error al actualizar cita")
  | ParsedId.valid oid =>
    match findCita db oid with
    | none => (db, 200, PatchAgendaBody.null)
    | some c => (updateCita db oid upd, 200, PatchAgendaBody.updated (upd c))

/-- Response body of `DELETE /api/agenda/:id`. -/
inductive DeleteAgendaBody where
  | message (m : String) : DeleteAgendaBody
  | error (m : String) : DeleteAgendaBody
deriving DecidableEq, Repr

/-- Handler of `DELETE /api/agenda/:id` (server.js lines 527-534): no
existence check and no `CastError` branch — any error lands in the
catch block as 500; otherwise always 200 with the success message. -/
def deleteAgendaById (db : List Cita) :
    ParsedId → List Cita × Nat × DeleteAgendaBody
  | ParsedId.malformed => (db, 500, DeleteAgendaBody.error "Error al eliminar cita")
  | ParsedId.valid oid =>
    (removeCita db oid, 200, DeleteAgendaBody.message "Cita eliminada con éxito")

/-! ## Theorems -/

/-- Claim C4: the bulk `DELETE /api/servicios` empties both the
`Servicio` and the `Agenda` collection and answers 200 with the
success message, and a `GET /api/agenda` against the resulting state
returns the empty event sequence. -/
theorem c4_delete_all_cascades (st : DbState) :
    (deleteAllServicios st).1.servicios = []
    ∧ (deleteAllServicios st).1.agenda = []
    ∧ (deleteAllServicios st).2
        = (200, "Todos los servicios y citas eliminados con éxito.")
    ∧ getAgenda (deleteAllServicios st).1 = (200, []) := by
  refine ⟨rfl, rfl, rfl, ?_⟩
  simp [getAgenda, deleteAllServicios]

/-- Claim C5: the calendar-event projection of `GET /api/agenda`
assigns the completed color `#007A4D` exactly when `realizado` is
true and the other fixed color `#00AEEF` otherwise, and every other
event field is a plain copy of the stored field. -/
theorem c5_agenda_event_color (cita : Cita) :
    ((toEvento cita).color = "#007A4D" ↔ cita.realizado = true)
    ∧ ((toEvento cita).color = "#00AEEF" ↔ cita.realizado = false)
    ∧ (toEvento cita).id = cita.id
    ∧ (toEvento cita).title = cita.title
    ∧ (toEvento cita).start = cita.start
    ∧ (toEvento cita).endTime = cita.endTime
    ∧ (toEvento cita).realizado = cita.realizado
    ∧ (toEvento cita).paciente = cita.paciente
    ∧ (toEvento cita).auxiliar = cita.auxiliar := by
  cases h : cita.realizado <;> simp [toEvento, h]

/-- Every record of the report appears as a table row carrying its
eight column texts. -/
theorem rowOf_mem_emitRows (ss : List Servicio) (y : Nat) (acc : Int)
    (s : Servicio) (hmem : s ∈ ss) : rowOf s ∈ (emitRows ss y acc).1 := by
  induction ss generalizing y acc with
  | nil => cases hmem
  | cons s' rest ih =>
    rcases List.mem_cons.mp hmem with rfl | h
    · by_cases hy : y + 20 > 550 <;> simp [emitRows, hy]
    · by_cases hy : y + 20 > 550 <;> simp [emitRows, hy] <;>
        [exact Or.inr (Or.inr (Or.inr (ih _ _ h))); exact Or.inr (ih _ _ h)]

/-- Claim C2: in the aggregate report every record's "Actividades Ad."
column is the string built from the activity count minus one followed
by " adiciones" when the count exceeds 1, and "Ninguna" otherwise; in
particular 3 activities render "2 adiciones" and 0 or 1 activities
render "Ninguna". -/
theorem c2_actividades_column :
    (∀ (ss : List Servicio) (y : Nat) (acc : Int) (s : Servicio), s ∈ ss →
      RowLine.row s.fecha s.hora s.nombrePaciente s.nombreAuxiliar s.concepto
          (if s.actividades.length > 1
           then toString (s.actividades.length - 1) ++ " adiciones"
           else "Ninguna")
          s.precio s.total
        ∈ (emitRows ss y acc).1)
    ∧ (∀ s : Servicio, s.actividades.length = 3 → actividadesStr s = "2 adiciones")
    ∧ (∀ s : Servicio, s.actividades.length = 0 ∨ s.actividades.length = 1 →
        actividadesStr s = "Ninguna") := by
  refine ⟨?_, ?_, ?_⟩
  · intro ss y acc s hmem
    exact rowOf_mem_emitRows ss y acc s hmem
  · intro s h
    simp [actividadesStr, h]
    rfl
  · intro s h
    rcases h with h | h <;> simp [actividadesStr, h]

/-- Concrete run of C2: a record with three itemized activities
appears in the aggregate report with the column text "2 adiciones". -/
theorem c2_actividades_column_witness :
    RowLine.row "02/02/2025" "09:00" "P" "A" "Higiene" "2 adiciones" 10 16
      ∈ (emitRows
          [{ fecha := "02/02/2025", hora := "09:00", nombreFamiliar := "F",
             nombrePaciente := "P", nombreAuxiliar := "A", concepto := "Higiene",
             precio := 10, total := 16, firma := none,
             actividades := [⟨"a", 1⟩, ⟨"b", 2⟩, ⟨"c", 3⟩] }] 70 0).1 :=
  c2_actividades_column.1 _ 70 0 _ (List.mem_singleton_self _)

/-- Claim C6: `GET /api/services/:id` answers 404 for a well-formed
identifier with no matching document, 400 for a malformed identifier,
and 200 with the document for a well-formed identifier that matches. -/
theorem c6_get_service_by_id :
    (∀ (db : List (Nat × Service)) (oid : Nat), findDoc db oid = none →
      getServiceById db (ParsedId.valid oid)
        = (404, ServiceByIdBody.message "Servicio no encontrado."))
    ∧ (∀ db : List (Nat × Service),
      getServiceById db ParsedId.malformed
        = (400, ServiceByIdBody.message "ID de servicio no válido."))
    ∧ (∀ (db : List (Nat × Service)) (oid : Nat) (s : Service),
      findDoc db oid = some s →
      getServiceById db (ParsedId.valid oid) = (200, ServiceByIdBody.document s)) := by
  refine ⟨?_, fun _ => rfl, ?_⟩
  · intro db oid h
    simp [getServiceById, h]
  · intro db oid s h
    simp [getServiceById, h]

/-- Concrete run of C6: an empty collection yields 404 for id 7, and a
singleton collection yields 200 with its document for id 1. -/
theorem c6_get_service_by_id_witness :
    getServiceById [] (ParsedId.valid 7)
      = (404, ServiceByIdBody.message "Servicio no encontrado.")
    ∧ getServiceById
        [(1, { patientName := "Ana", familyName := none,
               activity := "Baño asistido en ducha", visitDate := 0,
               price := 20000, isCompleted := false })] (ParsedId.valid 1)
      = (200, ServiceByIdBody.document
          { patientName := "Ana", familyName := none,
            activity := "Baño asistido en ducha", visitDate := 0,
            price := 20000, isCompleted := false }) :=
  ⟨c6_get_service_by_id.1 [] 7 rfl, c6_get_service_by_id.2.2 _ 1 _ rfl⟩

/-- When no document carries the identifier, `findByIdAndDelete`
leaves the collection unchanged. -/
theorem removeCita_of_not_found (db : List Cita) (oid : Nat)
    (h : findCita db oid = none) : removeCita db oid = db := by
  induction db with
  | nil => rfl
  | cons c rest ih =>
    by_cases hc : c.id = oid
    · simp [findCita, hc] at h
    · simp [findCita, hc] at h
      simp [removeCita, hc, ih h]

/-- Claim C10: the agenda by-id routes never answer 404; for a
well-formed identifier with no matching document, `PATCH
/api/agenda/:id` answers 200 with JSON body `null` leaving the
collection unchanged, and `DELETE /api/agenda/:id` answers 200 with
the success message. -/
theorem c10_agenda_no_404 :
    (∀ (db : List Cita) (upd : Cita → Cita) (pid : ParsedId),
      (patchAgenda db upd pid).2.1 ≠ 404 ∧ (deleteAgendaById db pid).2.1 ≠ 404)
    ∧ (∀ (db : List Cita) (upd : Cita → Cita) (oid : Nat),
      findCita db oid = none →
      patchAgenda db upd (ParsedId.valid oid) = (db, 200, PatchAgendaBody.null))
    ∧ (∀ (db : List Cita) (oid : Nat),
      findCita db oid = none →
      deleteAgendaById db (ParsedId.valid oid)
        = (db, 200, DeleteAgendaBody.message "Cita eliminada con éxito")) := by
  refine ⟨?_, ?_, ?_⟩
  · intro db upd pid
    cases pid with
    | malformed => exact ⟨by simp [patchAgenda], by simp [deleteAgendaById]⟩
    | valid oid =>
      refine ⟨?_, by simp [deleteAgendaById]⟩
      cases h : findCita db oid <;> simp [patchAgenda, h]
  · intro db upd oid h
    simp [patchAgenda, h]
  · intro db oid h
    simp [deleteAgendaById, removeCita_of_not_found db oid h]

/-- Concrete run of C10: on a singleton agenda, patching and deleting
the absent id 9 both answer 200, with `null` and the success message
respectively. -/
theorem c10_agenda_no_404_witness :
    patchAgenda [{ id := 1, title := "Visita", start := 0, endTime := none,
                   realizado := false, paciente := none, auxiliar := none }]
        id (ParsedId.valid 9)
      = ([{ id := 1, title := "Visita", start := 0, endTime := none,
            realizado := false, paciente := none, auxiliar := none }],
         200, PatchAgendaBody.null)
    ∧ deleteAgendaById
        [{ id := 1, title := "Visita", start := 0, endTime := none,
           realizado := false, paciente := none, auxiliar := none }]
        (ParsedId.valid 9)
      = ([{ id := 1, title := "Visita", start := 0, endTime := none,
            realizado := false, paciente := none, auxiliar := none }],
         200, DeleteAgendaBody.message "Cita eliminada con éxito") :=
  ⟨c10_agenda_no_404.2.1 _ id 9 (by decide), c10_agenda_no_404.2.2 _ 9 (by decide)⟩

/-- The total line of the individual report renders the record's
stored `total` field. -/
theorem totalCobradoLine_eq (s : Servicio) :
    totalCobradoLine s
      = some ("TOTAL COBRADO: $" ++ intToLocaleString s.total) := by
  unfold totalCobradoLine reporteIndividualLines
  rw [List.getElem?_append_right (by simp), List.getElem?_append_right (by simp)]
  simp

/-- A record whose stored `total` disagrees with base price plus
itemized activity prices: base 5 and activities priced 3 and 4, but
`total` stored as 0. -/
def servicioTotalDesfasado : Servicio :=
  { fecha := "01/01/2025", hora := "10:00", nombreFamiliar := "F",
    nombrePaciente := "P", nombreAuxiliar := "A", concepto := "Higiene",
    precio := 5, total := 0, firma := none,
    actividades := [⟨"Curación", 3⟩, ⟨"Inyección", 4⟩] }

/-- Counterexample to claim C1 as stated: for this record the
individual report's total line reads "TOTAL COBRADO: $0" while base
price plus the itemized activity prices is 12 — the rendered total is
the stored `total` field, not the recomputed sum. -/
theorem c1_total_line_counterexample :
    totalCobradoLine servicioTotalDesfasado = some "TOTAL COBRADO: $0"
    ∧ servicioTotalDesfasado.precio + actividadesSum servicioTotalDesfasado = 12
    ∧ totalCobradoLine servicioTotalDesfasado
        ≠ some ("TOTAL COBRADO: $"
            ++ intToLocaleString
              (servicioTotalDesfasado.precio
                + actividadesSum servicioTotalDesfasado)) := by
  refine ⟨by decide, by decide, by decide⟩

/-- Claim C1 amended: the individual report's total line renders the
record's stored `total` field; it equals base price plus the itemized
activity prices exactly for records whose stored `total` was set to
that sum (the handler performs no recomputation). -/
theorem c1_total_line :
    ∀ s : Servicio,
      totalCobradoLine s = some ("TOTAL COBRADO: $" ++ intToLocaleString s.total)
      ∧ (s.total = s.precio + actividadesSum s →
        totalCobradoLine s
          = some ("TOTAL COBRADO: $"
              ++ intToLocaleString (s.precio + actividadesSum s))) := by
  intro s
  refine ⟨totalCobradoLine_eq s, fun h => ?_⟩
  rw [totalCobradoLine_eq s, h]

/-- Concrete run of C1 (amended): a record with base 10000 and two
activities priced 1000 and 1000 whose stored total is 12000 renders
exactly the base-plus-itemized sum. -/
theorem c1_total_line_witness :
    totalCobradoLine
        { fecha := "01/01/2025", hora := "10:00", nombreFamiliar := "F",
          nombrePaciente := "P", nombreAuxiliar := "A", concepto := "Higiene",
          precio := 10000, total := 12000, firma := none,
          actividades := [⟨"Curación", 1000⟩, ⟨"Inyección", 1000⟩] }
      = some ("TOTAL COBRADO: $"
          ++ intToLocaleString
            ((10000 : Int)
              + actividadesSum
                { fecha := "01/01/2025", hora := "10:00", nombreFamiliar := "F",
                  nombrePaciente := "P", nombreAuxiliar := "A",
                  concepto := "Higiene", precio := 10000, total := 12000,
                  firma := none,
                  actividades := [⟨"Curación", 1000⟩, ⟨"Inyección", 1000⟩] })) :=
  (c1_total_line _).2 (by decide)

/-- Every page break emitted by the row loop is immediately followed
by a re-emitted header row. -/
theorem headerFollowsBreak_emitRows (ss : List Servicio) (y : Nat) (acc : Int) :
    headerFollowsBreak (emitRows ss y acc).1 = true := by
  induction ss generalizing y acc with
  | nil => rfl
  | cons s rest ih =>
    by_cases hy : y + 20 > 550 <;> simp [emitRows, hy, headerFollowsBreak, ih]

/-- When the rows advance the cursor past the 550 threshold, the loop
emits a page break. -/
theorem pageBreak_mem_emitRows (ss : List Servicio) (y : Nat) (acc : Int)
    (hne : ss ≠ []) (hy : y + 20 * ss.length > 550) :
    RowLine.pageBreak ∈ (emitRows ss y acc).1 := by
  induction ss generalizing y acc with
  | nil => exact absurd rfl hne
  | cons s rest ih =>
    by_cases hb : y + 20 > 550
    · simp [emitRows, hb]
    · have hrest : rest ≠ [] := by
        intro h
        subst h
        simp at hy
        omega
      have hlen : (y + 20) + 20 * rest.length > 550 := by
        simp [List.length_cons] at hy
        omega
      simp [emitRows, hb]
      exact Or.inr (ih (y + 20) (acc + s.total) hrest hlen)

/-- Claim C3: in the aggregate report's table, every page break is
immediately followed by a re-emitted header row (the loop resets the
cursor to 50 and advances past the header before any further record
row), and a report whose rows drive the cursor past the 550 threshold
contains a page break — hence a second page with a repeated header. -/
theorem c3_pagination :
    (∀ (ss : List Servicio) (y0 : Nat),
      headerFollowsBreak (reporteGeneralTable ss y0).1 = true)
    ∧ (∀ (ss : List Servicio) (y0 : Nat), ss ≠ [] →
      y0 + 20 * ss.length > 550 →
      RowLine.pageBreak ∈ (reporteGeneralTable ss y0).1) := by
  constructor
  · intro ss y0
    simp [reporteGeneralTable, headerFollowsBreak]
    exact headerFollowsBreak_emitRows ss y0 0
  · intro ss y0 hne hy
    simp [reporteGeneralTable]
    exact pageBreak_mem_emitRows ss y0 0 hne hy

/-- Concrete run of C3: two records starting at cursor 540 overflow
the threshold and a page break is emitted. -/
theorem c3_pagination_witness :
    RowLine.pageBreak
      ∈ (reporteGeneralTable
          [{ fecha := "01/01/2025", hora := "10:00", nombreFamiliar := "F",
             nombrePaciente := "P", nombreAuxiliar := "A", concepto := "Higiene",
             precio := 5, total := 5, firma := none, actividades := [] },
           { fecha := "02/01/2025", hora := "11:00", nombreFamiliar := "G",
             nombrePaciente := "Q", nombreAuxiliar := "B", concepto := "Otros",
             precio := 7, total := 7, firma := none, actividades := [] }] 540).1 :=
  c3_pagination.2 _ 540 (by decide) (by decide)

/-- The grand total accumulated by the row loop is the sum of the
stored `total` fields. -/
theorem emitRows_total (ss : List Servicio) (y : Nat) (acc : Int) :
    (emitRows ss y acc).2 = acc + (ss.map Servicio.total).sum := by
  induction ss generalizing y acc with
  | nil => simp [emitRows]
  | cons s rest ih =>
    by_cases hy : y + 20 > 550 <;> simp [emitRows, hy, ih] <;> omega

/-- Claim C9: the grand-total line of the aggregate report renders the
sum of the stored `total` fields of the fetched records; in particular
it is unchanged between record lists that agree on the `total` fields,
whatever their base prices and itemized activity prices. -/
theorem c9_total_recaudado :
    ∀ (ss : List Servicio) (y0 : Nat),
      totalRecaudadoLine ss y0
        = "TOTAL RECAUDADO (General): $"
            ++ intToLocaleString ((ss.map Servicio.total).sum)
      ∧ (∀ (ss' : List Servicio) (y0' : Nat),
          ss.map Servicio.total = ss'.map Servicio.total →
          totalRecaudadoLine ss y0 = totalRecaudadoLine ss' y0') := by
  have hline : ∀ (ss : List Servicio) (y0 : Nat),
      totalRecaudadoLine ss y0
        = "TOTAL RECAUDADO (General): $"
            ++ intToLocaleString ((ss.map Servicio.total).sum) := by
    intro ss y0
    unfold totalRecaudadoLine reporteGeneralTable
    rw [emitRows_total ss y0 0]
    simp
  intro ss y0
  refine ⟨hline ss y0, ?_⟩
  intro ss' y0' htot
  rw [hline ss y0, hline ss' y0', htot]

/-- Concrete run of C9: two record lists with different base prices
and activities but the same stored totals render the same grand-total
line. -/
theorem c9_total_recaudado_witness :
    totalRecaudadoLine
        [{ fecha := "01/01/2025", hora := "10:00", nombreFamiliar := "F",
           nombrePaciente := "P", nombreAuxiliar := "A", concepto := "Higiene",
           precio := 999, total := 5000, firma := none,
           actividades := [⟨"x", 77⟩] }] 70
      = totalRecaudadoLine
        [{ fecha := "03/03/2025", hora := "12:00", nombreFamiliar := "G",
           nombrePaciente := "Q", nombreAuxiliar := "B", concepto := "Otros",
           precio := 0, total := 5000, firma := none, actividades := [] }] 200 :=
  (c9_total_recaudado _ 70).2 _ 200 (by decide)

/-- Claim C7: `POST /api/services` with price -1 on an otherwise valid
body answers 400 with the validation-message list carrying the price
message, and the same body with price 0 answers 201. -/
theorem c7_price_validation :
    ∀ inp : ServiceInput,
      inp.price = some (-1) →
      validateService { inp with price := some 0 } = [] →
      ((postService inp).1 = 400
        ∧ (postService inp).2
            = PostServiceBody.validationError ["El precio no puede ser negativo."])
      ∧ (postService { inp with price := some 0 }).1 = 201 := by
  intro inp hp h0
  have epn : patientNameErrors { inp with price := some 0 }
      = patientNameErrors inp := rfl
  have efn : familyNameErrors { inp with price := some 0 }
      = familyNameErrors inp := rfl
  have eac : activityErrors { inp with price := some 0 }
      = activityErrors inp := rfl
  have evd : visitDateErrors { inp with price := some 0 }
      = visitDateErrors inp := rfl
  have epr : priceErrors { inp with price := some 0 } = [] := by
    simp [priceErrors]
  have h0' := h0
  unfold validateService at h0'
  rw [epn, efn, eac, evd, epr, List.append_nil] at h0'
  simp only [List.append_eq_nil] at h0'
  obtain ⟨⟨⟨hA, hB⟩, hC⟩, hD⟩ := h0'
  have hv : validateService inp
      = [("price", "El precio no puede ser negativo.")] := by
    unfold validateService
    rw [hA, hB, hC, hD]
    simp [priceErrors, hp]
  refine ⟨⟨?_, ?_⟩, ?_⟩
  · unfold postService
    rw [hv]
  · unfold postService
    rw [hv]
    rfl
  · unfold postService
    rw [h0]

/-- Concrete run of C7: a body with patient "Ana", a visit date and
price -1 is rejected with the price message; with price 0 it is
created. -/
theorem c7_price_validation_witness :
    ((postService { patientName := some "Ana", familyName := none,
                    activity := none, visitDate := some 0,
                    price := some (-1), isCompleted := none }).1 = 400
      ∧ (postService { patientName := some "Ana", familyName := none,
                       activity := none, visitDate := some 0,
                       price := some (-1), isCompleted := none }).2
          = PostServiceBody.validationError ["El precio no puede ser negativo."])
    ∧ (postService { patientName := some "Ana", familyName := none,
                     activity := none, visitDate := some 0,
                     price := some 0, isCompleted := none } :
          Nat × PostServiceBody).1 = 201 :=
  c7_price_validation
    { patientName := some "Ana", familyName := none, activity := none,
      visitDate := some 0, price := some (-1), isCompleted := none }
    rfl (by decide)

/-- `trimEnd` either empties a list or keeps its head. -/
theorem trimRightL_shape (c : Char) (cs : List Char) :
    trimRightL (c :: cs) = [] ∨ ∃ r, trimRightL (c :: cs) = c :: r := by
  cases h : trimRightL cs with
  | nil =>
    by_cases hc : jsIsWS c
    · left
      simp [trimRightL, h, hc]
    · right
      exact ⟨[], by simp [trimRightL, h, hc]⟩
  | cons r rs =>
    right
    exact ⟨r :: rs, by simp [trimRightL, h]⟩

/-- A list with no leading whitespace keeps that property under
`trimEnd`. -/
theorem trimLeftL_trimRightL (l : List Char)
    (h : l.dropWhile jsIsWS = l) :
    (trimRightL l).dropWhile jsIsWS = trimRightL l := by
  cases l with
  | nil => rfl
  | cons c cs =>
    have hc : jsIsWS c = false := by
      have := List.dropWhile_eq_self_iff.mp h (by simp)
      simpa using this
    rcases trimRightL_shape c cs with h0 | ⟨r, h0⟩ <;> rw [h0]
    · rfl
    · simp [List.dropWhile_cons, hc]

/-- `trimEnd` is idempotent. -/
theorem trimRightL_idem (l : List Char) :
    trimRightL (trimRightL l) = trimRightL l := by
  induction l with
  | nil => rfl
  | cons c cs ih =>
    cases h : trimRightL cs with
    | nil =>
      by_cases hc : jsIsWS c
      · simp [trimRightL, h, hc]
      · simp [trimRightL, h, hc]
    | cons r rs =>
      have hcons : trimRightL (c :: cs) = c :: r :: rs := by
        simp [trimRightL, h]
      rw [hcons]
      have hrr : trimRightL (r :: rs) = r :: rs := by
        rw [← h, ih, h]
      conv_lhs => rw [trimRightL]
      rw [hrr]

/-- `trim` is idempotent. -/
theorem jsTrim_idem (s : List Char) : jsTrim (jsTrim s) = jsTrim s := by
  unfold jsTrim trimLeftL
  rw [trimLeftL_trimRightL _ (List.dropWhile_idempotent jsIsWS s), trimRightL_idem]

/-- A pattern that starts a list also starts any extension of it. -/
theorem leadsList_append (pat t w : List Char)
    (h : leadsList pat t = true) : leadsList pat (t ++ w) = true := by
  induction pat generalizing t with
  | nil => rfl
  | cons a ps ih =>
    cases t with
    | nil => simp [leadsList] at h
    | cons b ts =>
      simp only [leadsList, Bool.and_eq_true] at h
      simp only [List.cons_append, leadsList, Bool.and_eq_true]
      exact ⟨h.1, ih ts h.2⟩

/-- A nonempty pattern is absent exactly when it starts no suffix. -/
theorem firstIndexOf_eq_none_iff (pat : List Char) (hp : pat ≠ []) :
    ∀ s, firstIndexOf pat s = none ↔ ∀ i, leadsList pat (s.drop i) = false := by
  intro s
  induction s with
  | nil =>
    cases pat with
    | nil => exact absurd rfl hp
    | cons a ps =>
      simp [firstIndexOf, leadsList]
  | cons c cs ih =>
    constructor
    · intro h i
      by_cases hl : leadsList pat (c :: cs)
      · simp [firstIndexOf, hl] at h
      · have hl2 : leadsList pat (c :: cs) = false := by
          simpa using hl
        cases i with
        | zero => exact hl2
        | succ j =>
          simp only [firstIndexOf, hl2, Bool.false_eq_true, if_false,
            Option.map_eq_none'] at h
          exact (ih.mp h) j
    · intro h
      have h0 := h 0
      simp only [List.drop_zero] at h0
      simp only [firstIndexOf, h0, Bool.false_eq_true, if_false,
        Option.map_eq_none']
      exact ih.mpr fun j => h (j + 1)

/-- `trimEnd` keeps an initial segment of its input. -/
theorem trimRightL_append_back (l : List Char) :
    ∃ w, trimRightL l ++ w = l := by
  induction l with
  | nil => exact ⟨[], rfl⟩
  | cons c cs ih =>
    cases h : trimRightL cs with
    | nil =>
      by_cases hc : jsIsWS c
      · exact ⟨c :: cs, by simp [trimRightL, h, hc]⟩
      · exact ⟨cs, by simp [trimRightL, h, hc]⟩
    | cons r rs =>
      obtain ⟨w, hw⟩ := ih
      refine ⟨w, ?_⟩
      have hcons : trimRightL (c :: cs) = c :: r :: rs := by
        simp [trimRightL, h]
      rw [hcons]
      rw [h] at hw
      simpa using hw

/-- `dropWhile` removes some initial segment. -/
theorem dropWhile_eq_dropN (p : Char → Bool) (l : List Char) :
    ∃ k, l.dropWhile p = l.drop k := by
  induction l with
  | nil => exact ⟨0, rfl⟩
  | cons c cs ih =>
    by_cases hc : p c
    · obtain ⟨k, hk⟩ := ih
      exact ⟨k + 1, by simpa [List.dropWhile_cons, hc] using hk⟩
    · exact ⟨0, by simp [List.dropWhile_cons, hc]⟩

/-- A pattern absent from a string is absent from its trimmed form. -/
theorem firstIndexOf_jsTrim_none (pat s : List Char) (hp : pat ≠ [])
    (h : firstIndexOf pat s = none) :
    firstIndexOf pat (jsTrim s) = none := by
  rw [firstIndexOf_eq_none_iff pat hp] at h ⊢
  intro i
  by_contra hb
  have hlead : leadsList pat ((jsTrim s).drop i) = true := by
    cases hll : leadsList pat ((jsTrim s).drop i)
    · exact absurd hll hb
    · rfl
  obtain ⟨w, hw⟩ := trimRightL_append_back (trimLeftL s)
  obtain ⟨k, hk⟩ := dropWhile_eq_dropN jsIsWS s
  have hdrop : (trimLeftL s).drop i
      = (jsTrim s).drop i ++ w.drop (i - (jsTrim s).length) := by
    rw [← hw]
    exact List.drop_append_eq_append_drop
  have h1 : leadsList pat ((trimLeftL s).drop i) = true := by
    rw [hdrop]
    exact leadsList_append _ _ _ hlead
  have h2 : leadsList pat (s.drop (k + i)) = true := by
    have hdk : (trimLeftL s).drop i = s.drop (k + i) := by
      unfold trimLeftL
      rw [hk, List.drop_drop]
    rw [← hdk]
    exact h1
  rw [h (k + i)] at h2
  exact absurd h2 (by simp)

/-- Claim C8: the startup sanitization of `MONGO_URI` computes exactly
what the specification describes — the input with the first occurrence
of the literal `MONGO_URI=` removed and surrounding whitespace
trimmed, truncated immediately after the first occurrence of
`appName=Cluster0` (and trimmed again) when that substring occurs in
the result — and an input containing neither pattern comes back
unchanged apart from trimming. -/
theorem c8_sanitize :
    (∀ s : List Char, sanitizeMongoUri s = sanitizeMongoUriClaim s)
    ∧ (∀ s : List Char,
        firstIndexOf mongoUriKeyPat s = none →
        firstIndexOf appNamePat s = none →
        sanitizeMongoUri s = jsTrim s) := by
  constructor
  · intro s
    unfold sanitizeMongoUri sanitizeMongoUriClaim truncateAfterAppName
    cases h : firstIndexOf appNamePat (jsTrim (replaceFirst s mongoUriKeyPat)) with
    | none => exact jsTrim_idem _
    | some i => rfl
  · intro s h1 h2
    have hrep : replaceFirst s mongoUriKeyPat = s := by
      simp [replaceFirst, h1]
    unfold sanitizeMongoUri truncateAfterAppName
    rw [hrep]
    rw [firstIndexOf_jsTrim_none appNamePat s (by decide) h2]
    exact jsTrim_idem s

/-- Concrete run of C8: a connection string containing neither pattern
is only trimmed. -/
theorem c8_sanitize_witness :
    sanitizeMongoUri "  mongodb://localhost/enfermeriaDB  ".data
      = jsTrim "  mongodb://localhost/enfermeriaDB  ".data :=
  c8_sanitize.2 _ (by decide) (by decide)

end Enfermeria
